import Mathlib

set_option maxHeartbeats 1000000

/-!
Shallow embedding of the document-processing and caching core of the
Analytics-Depot backend:

* `app/services/cache_service.py` — `InMemoryCache`, `QueryCache.make_key`,
  `PartialResultCache.make_key`;
* `app/services/file_processor.py` — `FileProcessor.process_file_enhanced`,
  `FileProcessor.process_file`, `FileProcessor._fallback_pdf_processing`,
  `FileProcessor._should_use_enhanced_processing`,
  `FileProcessor._check_system_resources`;
* `app/routers/chats.py` — query normalization/fingerprinting and the
  context-building fragment of `send_message`;
* `app/services/openai_service.py` — `OpenAIService.summarize_text`.

External library calls (Docling, PyPDF2, pandas, `json`, `base64`, psutil,
the LLM, SHA-256) are boundaries of the core and are modelled as oracle
parameters (fields of an `Env` record or explicit function arguments).
Wall-clock times and TTLs (Python floats) are modelled as rationals; the
control flow of the code never depends on their rounding.
-/

/-- ASCII whitespace characters removed by Python's `str.strip()` and tested
by `str.isspace` (space, tab, newline, carriage return, vertical tab,
form feed). -/
def pyWs (c : Char) : Bool :=
  c = ' ' || c = '\t' || c = '\n' || c = '\x0d' || c = '\x0b' || c = '\x0c'

/-- Python `str.strip()` on a list of characters: drop `pyWs` characters from
both ends. -/
def pyStripL (l : List Char) : List Char :=
  ((l.dropWhile pyWs).reverse.dropWhile pyWs).reverse

/-- Python `str.lower()` on a list of characters (ASCII casing). -/
def pyLowerL (l : List Char) : List Char :=
  l.map Char.toLower

/-- Python `str.strip()`. -/
def pyStripStr (s : String) : String :=
  String.mk (pyStripL s.data)

/-- Python `str.lower()`. -/
def pyLowerStr (s : String) : String :=
  String.mk (pyLowerL s.data)

/-- Python slicing `s[:n]` (by code points). -/
def pyTake (s : String) (n : Nat) : String :=
  String.mk (s.data.take n)

/-- `listStarts s p` is Python's `s.startswith(p)` on character lists. -/
def listStarts : List Char → List Char → Bool
  | _, [] => true
  | [], _ :: _ => false
  | a :: as, b :: bs => a == b && listStarts as bs

/-- Python `s.startswith(pre)`. -/
def pyStartswith (s pre : String) : Bool :=
  listStarts s.data pre.data

/-- Python `str.split('.')` on a list of characters (always returns at least
one segment). -/
def pySplitDot : List Char → List (List Char)
  | [] => [[]]
  | c :: rest =>
    match pySplitDot rest with
    | [] => [[]]
    | seg :: segs => if c = '.' then [] :: seg :: segs else (c :: seg) :: segs

/-- `file.filename.split('.')[-1].lower() if file.filename else ''`
(used both in `process_file` and `_should_use_enhanced_processing`). -/
def extOf (s : String) : String :=
  if s = "" then "" else String.mk (pyLowerL ((pySplitDot s.data).getLastD []))

/-! ## The in-memory cache (`app/services/cache_service.py`) -/

/-- One stored tuple `(value, created_at, expire_at)` of `InMemoryCache`. -/
structure CacheEntry (α : Type) where
  value : α
  created_at : Rat
  expire_at : Option Rat
  deriving DecidableEq

/-- The `_cache` dict of `InMemoryCache`, as an insertion-ordered
association list with unique keys (Python dict semantics). -/
abbrev Cache (α : Type) := List (String × CacheEntry α)

/-- Python dict lookup `self._cache.get(key)`. -/
def dictGet {α : Type} : Cache α → String → Option (CacheEntry α)
  | [], _ => none
  | (k', e) :: rest, k => if k' = k then some e else dictGet rest k

/-- Python dict assignment `self._cache[key] = entry` (overwrite in place,
append if new). -/
def dictSet {α : Type} : Cache α → String → CacheEntry α → Cache α
  | [], k, e => [(k, e)]
  | (k', e') :: rest, k, e =>
      if k' = k then (k, e) :: rest else (k', e') :: dictSet rest k e

/-- Python dict deletion `del self._cache[key]`. -/
def dictDel {α : Type} : Cache α → String → Cache α
  | [], _ => []
  | (k', e') :: rest, k => if k' = k then rest else (k', e') :: dictDel rest k

/-- `InMemoryCache.set(key, value, ttl)` at wall-clock time `now`:
`expire_at = time.time() + ttl if ttl else None` (`0.0` and `None` are both
falsy, so only a non-zero ttl produces an expiry time). -/
def cacheSet {α : Type} (c : Cache α) (key : String) (value : α)
    (ttl : Option Rat) (now : Rat) : Cache α :=
  let expire_at : Option Rat :=
    match ttl with
    | none => none
    | some t => if t = 0 then none else some (now + t)
  dictSet c key ⟨value, now, expire_at⟩

/-- `InMemoryCache.get(key)` at wall-clock time `now`: returns the stored
value, lazily deleting it when expired (`if expire_at and time.time() >
expire_at`; a zero `expire_at` is falsy and never expires). Returns the
read result together with the possibly-updated store. -/
def cacheGet {α : Type} (c : Cache α) (now : Rat) (key : String) :
    Option α × Cache α :=
  match dictGet c key with
  | none => (none, c)
  | some e =>
    match e.expire_at with
    | none => (some e.value, c)
    | some ex => if ex ≠ 0 ∧ ex < now then (none, dictDel c key) else (some e.value, c)

/-- `QueryCache.make_key(chat_id, query_hash) = f"faq:{chat_id}:{query_hash}"`. -/
def query_cache_make_key (chat_id query_hash : String) : String :=
  "faq:" ++ chat_id ++ ":" ++ query_hash

/-- `PartialResultCache.make_key(file_id, result_type) =
f"partial:{file_id}:{result_type}"`. -/
def partial_result_cache_make_key (file_id result_type : String) : String :=
  "partial:" ++ file_id ++ ":" ++ result_type

/-- A string that contains no `':'`; key components built from UUIDs and hex
digests satisfy this. -/
def noColon (s : String) : Prop := ':' ∉ s.data

instance (s : String) : Decidable (noColon s) := by
  unfold noColon; infer_instance

/-! ## The file processor data model (`app/services/file_processor.py`) -/

/-- The `content` payload placed in a processing result, one constructor per
construction site in the source (enhanced Docling extraction, PyPDF2
fallback, and the basic branches of `process_file`). Payloads produced by
external libraries (parsed JSON, pandas records, base64 blobs) are carried
as the opaque values the corresponding oracle returned. -/
inductive PFContent
  | doclingContent (markdown_content : String) (document_type : String)
  | pypdf2Content (text_content : String)
  | jsonParsed (value : String)
  | csvRecords (records : String)
  | imageBasic (image_data : String) (image_type : String) (file_size : Nat)
  | excelRecords (records : String)
  | textBasic (text_content : String) (file_type : String) (file_size : Nat)
      (character_count : Nat) (line_count : Nat)
  | documentBasic (document_data : String) (document_type : String) (file_size : Nat)
  deriving DecidableEq

/-- The `metadata` dict of a processing result, one constructor per
construction site; constant entries (`'format'`, `'processing_method'`,
`'ocr_enabled'`, notes) are determined by the constructor. -/
inductive PFMetadata
  | doclingMeta (file_name : String) (file_size : Nat) (token_estimate : Nat)
      (document_type : String) (ocr_language : List String) (force_ocr : Bool)
      (extracted_chars : Nat)
  | pypdf2Meta (file_name : String) (file_size : Nat) (pages : Nat)
      (extracted_chars : Nat)
  | jsonMeta (file_name : String) (file_size : Nat)
  | csvMeta (file_name : String) (file_size : Nat) (rows : Nat) (columns : List String)
  | imageMeta (file_name : String) (file_size : Nat) (image_type : String)
  | excelMeta (file_name : String) (file_size : Nat) (rows : Nat) (columns : List String)
  | textMeta (file_name : String) (file_size : Nat) (character_count : Nat)
      (line_count : Nat)
  | documentMeta (file_name : String) (file_size : Nat) (document_type : String)
  deriving DecidableEq

/-- The `ProcessingResult` dataclass. -/
structure ProcessingResult where
  success : Bool
  content : Option PFContent := none
  metadata : Option PFMetadata := none
  error_message : Option String := none
  processing_time : Rat := 0
  token_estimate : Nat := 0
  chunk_count : Nat := 1
  enhanced_processing : Bool := false
  deriving DecidableEq

/-- The dict returned by `process_file` (`success`/`content`/`metadata`/
`processing_time`/`enhanced_processing`, plus the `docling_error` key the
scanned-PDF second-chance path may add to the fallback result). -/
structure ProcessOutput where
  success : Bool
  content : Option PFContent
  metadata : Option PFMetadata
  processing_time : Rat
  enhanced_processing : Bool
  docling_error : Option String := none
  deriving DecidableEq

/-- Outcome of one Docling `converter.convert` + `export_to_markdown` run
(the external enhanced engine): the extracted markdown and document type on
success, or the exception the `try` block of `process_file_enhanced`
catches (`TimeoutError`, `MemoryError`, or any other exception). -/
inductive EngineOutcome
  | success (markdown : String) (document_type : String)
  | timedOut (msg : String)
  | memoryError
  | exception (msg : String)
  deriving DecidableEq

/-- Whether a Docling run succeeded. -/
def EngineOutcome.isSuccess : EngineOutcome → Bool
  | .success _ _ => true
  | _ => false

/-- The error message `process_file_enhanced` stores for each failing engine
outcome (`none` for a success). -/
def errMsgOf : EngineOutcome → Option String
  | .success _ _ => none
  | .timedOut m => some ("Enhanced processing timed out: " ++ m)
  | .memoryError => some "Memory error during enhanced processing"
  | .exception m => some ("Enhanced processing error: " ++ m)

/-- One psutil measurement consumed by `_check_system_resources`: available
memory (MB) and CPU percentage, or a measurement failure (`err`, the
`except` branch). -/
inductive ResourceReading
  | ok (available_mb : Rat) (cpu_percent : Rat)
  | err
  deriving DecidableEq

/-- `FileProcessor._check_system_resources`: insufficient when available
memory is below `max_memory_mb` or CPU is above 90%; fails open (returns
`True`) when the measurement itself errors. -/
def check_system_resources (max_memory_mb : Rat) (r : ResourceReading) : Bool :=
  match r with
  | .ok available_mb cpu_percent =>
    if available_mb < max_memory_mb then false
    else if cpu_percent > 90 then false
    else true
  | .err => true

/-- The uploaded file: `filename` and the bytes `file.read()` returns (the
orchestrator calls `seek(0)` before every re-read, so every read yields the
full content). -/
structure UploadFile where
  filename : String
  content : String
  deriving DecidableEq

/-- `len(pdf_reader.pages)` and the concatenation of
`page.extract_text() + "\n"` over all pages, as produced by the external
PyPDF2 reader in `_fallback_pdf_processing`. -/
structure Pypdf2Data where
  pages : Nat
  rawText : String
  deriving DecidableEq

/-- Rows/columns/records as produced by the external pandas
`read_csv`/`read_excel` + `to_dict(orient='records')` calls. -/
structure TableData where
  recordsRepr : String
  rows : Nat
  columns : List String
  deriving DecidableEq

/-- The environment of one `process_file` run: configuration plus the
outcomes of every external call. `resources` and `engine` are indexed by
the serial number of the `process_file_enhanced` invocation consuming them,
so an engine that "fails deterministically" is one failing at every index. -/
structure Env where
  doclingAvailable : Bool
  maxMemoryMB : Rat
  resources : Nat → ResourceReading
  engine : Nat → Bool → Option (List String) → EngineOutcome
  pypdf2 : Option Pypdf2Data
  jsonParse : Option String
  csvParse : Option TableData
  excelParse : Option TableData
  utf8Decode : Except String String
  b64 : String → String
  now : Rat
  elapsed : Rat

/-- The mutable state threaded through one `process_file` run: the
`partial_result_cache` store, the number of `process_file_enhanced`
invocations so far, and the log of engine invocations actually performed
(each with the `force_full_page_ocr` flag and the `lang` option the Docling
pipeline was configured with). -/
structure PState where
  cache : Cache ProcessingResult
  invocations : Nat
  log : List (Bool × Option (List String))
  deriving DecidableEq

/-- `if ocr_language:` — a `None` or empty language list is falsy, so the
Docling `ocr_options.lang` is only set for a non-empty list. -/
def normLang : Option (List String) → Option (List String)
  | none => none
  | some [] => none
  | some (x :: xs) => some (x :: xs)

/-- Python `ocr_language or ['en']`. -/
def pyOrDefault : Option (List String) → List String
  | none => ["en"]
  | some [] => ["en"]
  | some (x :: xs) => x :: xs

/-- The set literal `enhanced_formats` of `_should_use_enhanced_processing`. -/
def enhanced_formats : List String :=
  ["pdf", "docx", "pptx", "xlsx",
   "png", "jpg", "jpeg", "tiff", "tif", "bmp", "webp",
   "html", "htm"]

/-- `FileProcessor._should_use_enhanced_processing`. -/
def should_use_enhanced_processing (env : Env) (file : UploadFile)
    (force_ocr : Bool) : Bool :=
  if env.doclingAvailable = false then false
  else if force_ocr then true
  else enhanced_formats.contains (extOf file.filename)

/-- The failure `ProcessingResult` constructed in the `except` branches of
`process_file_enhanced` (enhanced_processing is reported as `True` there). -/
def enh_failure_result (msg : Option String) (t : Rat) : ProcessingResult :=
  { success := false, error_message := msg, processing_time := t,
    enhanced_processing := true }

/-- The resource-exhaustion failure of `process_file_enhanced`. -/
def resource_failure_result (t : Rat) : ProcessingResult :=
  enh_failure_result (some "Insufficient system resources for enhanced processing") t

/-- The failure returned when Docling is unavailable
(`enhanced_processing=False` at that construction site). -/
def docling_unavailable_result (t : Rat) : ProcessingResult :=
  { success := false,
    error_message := some "Docling OCR is not available in this environment.",
    processing_time := t, enhanced_processing := false }

/-- The success `ProcessingResult` built from one Docling run
(`token_estimate = len(markdown) // 4`, metadata with
`ocr_language or ['en']` and the caller's `force_ocr`). -/
def docling_success_result (env : Env) (file : UploadFile) (force_ocr : Bool)
    (ocr_language : Option (List String)) (markdown document_type : String) :
    ProcessingResult :=
  { success := true,
    content := some (PFContent.doclingContent markdown document_type),
    metadata := some (PFMetadata.doclingMeta file.filename file.content.length
      (markdown.length / 4) document_type (pyOrDefault ocr_language) force_ocr
      markdown.length),
    processing_time := env.elapsed,
    token_estimate := markdown.length / 4,
    enhanced_processing := true }

/-- `FileProcessor.process_file_enhanced`: check the partial-result cache
under `partial:{filename}:ocr`; fail when Docling is unavailable; fail when
`_check_system_resources` reports insufficient resources; otherwise run the
engine (recorded in the log with the `force_full_page_ocr` flag and the
truthiness-filtered language option) and on success cache the result with a
3600s TTL. Every failure is returned as `success=False`, never raised. -/
def process_file_enhanced (env : Env) (file : UploadFile) (force_ocr : Bool)
    (ocr_language : Option (List String)) (s : PState) :
    ProcessingResult × PState :=
  let i := s.invocations
  let key := partial_result_cache_make_key file.filename "ocr"
  let g := cacheGet s.cache env.now key
  match g.1 with
  | some cached => (cached, { cache := g.2, invocations := i + 1, log := s.log })
  | none =>
    if env.doclingAvailable = false then
      (docling_unavailable_result env.elapsed,
       { cache := g.2, invocations := i + 1, log := s.log })
    else if check_system_resources env.maxMemoryMB (env.resources i) = false then
      (resource_failure_result env.elapsed,
       { cache := g.2, invocations := i + 1, log := s.log })
    else
      match env.engine i force_ocr (normLang ocr_language) with
      | EngineOutcome.success markdown document_type =>
        let result := docling_success_result env file force_ocr ocr_language
          markdown document_type
        (result,
         { cache := cacheSet g.2 key result (some 3600) env.now,
           invocations := i + 1,
           log := s.log ++ [(force_ocr, normLang ocr_language)] })
      | o =>
        (enh_failure_result (errMsgOf o) env.elapsed,
         { cache := g.2, invocations := i + 1,
           log := s.log ++ [(force_ocr, normLang ocr_language)] })

/-- The enhanced phase of `process_file` (lines 608–615): one attempt, and on
failure exactly one retry with `force_ocr=True` and
`ocr_language or ['en']`. -/
def enhanced_attempts (env : Env) (file : UploadFile) (force_ocr : Bool)
    (ocr_language : Option (List String)) (s : PState) :
    ProcessingResult × PState :=
  let p := process_file_enhanced env file force_ocr ocr_language s
  if p.1.success then p
  else process_file_enhanced env file true (some (pyOrDefault ocr_language)) p.2

/-- The canned marker `_fallback_pdf_processing` substitutes when PyPDF2
extracts no non-whitespace text. -/
def scannedMarker : String :=
  "This appears to be a scanned PDF. Enhanced OCR processing is required for text extraction."

/-- The successful return value of `FileProcessor._fallback_pdf_processing`
for a given PyPDF2 reading. -/
def fallback_output (env : Env) (file : UploadFile) (pd : Pypdf2Data) :
    ProcessOutput :=
  let text_content := if pyStripStr pd.rawText = "" then scannedMarker else pd.rawText
  { success := true,
    content := some (PFContent.pypdf2Content text_content),
    metadata := some (PFMetadata.pypdf2Meta file.filename file.content.length
      pd.pages text_content.length),
    processing_time := env.elapsed,
    enhanced_processing := false }

/-- `fallback_result.get('content', {}).get('text_content', '')`. -/
def fallback_text_of (o : ProcessOutput) : String :=
  match o.content with
  | some (PFContent.pypdf2Content t) => t
  | _ => ""

/-- The dict `process_file` returns when an enhanced attempt succeeded. -/
def enhanced_success_output (r : ProcessingResult) : ProcessOutput :=
  { success := true, content := r.content, metadata := r.metadata,
    processing_time := r.processing_time, enhanced_processing := true }

/-- The basic image-branch fallback dict (base64 passthrough with advisory
note). -/
def image_basic_output (env : Env) (file : UploadFile) (file_ext : String) :
    ProcessOutput :=
  { success := true,
    content := some (PFContent.imageBasic (env.b64 file.content) file_ext
      file.content.length),
    metadata := some (PFMetadata.imageMeta file.filename file.content.length file_ext),
    processing_time := env.elapsed,
    enhanced_processing := false }

/-- The basic JSON branch output (`json.loads(content)` succeeded). -/
def json_basic_output (env : Env) (file : UploadFile) (v : String) : ProcessOutput :=
  { success := true, content := some (PFContent.jsonParsed v),
    metadata := some (PFMetadata.jsonMeta file.filename file.content.length),
    processing_time := env.elapsed, enhanced_processing := false }

/-- The basic CSV branch output (pandas `read_csv` succeeded). -/
def csv_basic_output (env : Env) (file : UploadFile) (td : TableData) : ProcessOutput :=
  { success := true, content := some (PFContent.csvRecords td.recordsRepr),
    metadata := some (PFMetadata.csvMeta file.filename file.content.length
      td.rows td.columns),
    processing_time := env.elapsed, enhanced_processing := false }

/-- The basic Excel branch output (pandas `read_excel` succeeded). -/
def excel_basic_output (env : Env) (file : UploadFile) (td : TableData) : ProcessOutput :=
  { success := true, content := some (PFContent.excelRecords td.recordsRepr),
    metadata := some (PFMetadata.excelMeta file.filename file.content.length
      td.rows td.columns),
    processing_time := env.elapsed, enhanced_processing := false }

/-- The basic text branch output (`content.decode('utf-8')` succeeded;
`line_count = len(text.split('\n'))`). -/
def text_basic_output (env : Env) (file : UploadFile) (file_ext t : String) :
    ProcessOutput :=
  { success := true,
    content := some (PFContent.textBasic t file_ext file.content.length t.length
      (t.splitOn "\n").length),
    metadata := some (PFMetadata.textMeta file.filename file.content.length t.length
      (t.splitOn "\n").length),
    processing_time := env.elapsed, enhanced_processing := false }

/-- The basic document branch output (base64 blob with advisory note). -/
def document_basic_output (env : Env) (file : UploadFile) (file_ext : String) :
    ProcessOutput :=
  { success := true,
    content := some (PFContent.documentBasic (env.b64 file.content) file_ext
      file.content.length),
    metadata := some (PFMetadata.documentMeta file.filename file.content.length
      file_ext),
    processing_time := env.elapsed, enhanced_processing := false }

/-- The basic-processing section of `process_file` (lines 658–828): the
format-specific branches on the lowercased extension, ending in the
`Unsupported file type` error. Parse failures of the external parsers are
re-raised as the branch's `ValueError` (modelled as `Except.error`). -/
def basic_processing (env : Env) (file : UploadFile) (s : PState) :
    Except String ProcessOutput × PState :=
  let file_ext := extOf file.filename
  if file_ext = "json" then
    match env.jsonParse with
    | some v => (Except.ok (json_basic_output env file v), s)
    | none => (Except.error "Invalid JSON file", s)
  else if file_ext = "csv" then
    match env.csvParse with
    | some td => (Except.ok (csv_basic_output env file td), s)
    | none => (Except.error "Invalid CSV file", s)
  else if file_ext ∈ ["jpg", "jpeg", "png", "gif", "bmp", "tiff", "webp"] then
    if env.doclingAvailable then
      let p := process_file_enhanced env file true none s
      if p.1.success then (Except.ok (enhanced_success_output p.1), p.2)
      else (Except.ok (image_basic_output env file file_ext), p.2)
    else (Except.ok (image_basic_output env file file_ext), s)
  else if file_ext ∈ ["xlsx", "xls"] then
    match env.excelParse with
    | some td => (Except.ok (excel_basic_output env file td), s)
    | none => (Except.error "Invalid Excel file", s)
  else if file_ext ∈ ["txt", "md", "rtf", "html", "xml", "yaml", "yml"] then
    match env.utf8Decode with
    | Except.ok t => (Except.ok (text_basic_output env file file_ext t), s)
    | Except.error e => (Except.error ("Invalid text file: " ++ e), s)
  else if file_ext ∈ ["pdf", "docx", "doc", "odt"] then
    (Except.ok (document_basic_output env file file_ext), s)
  else (Except.error ("Unsupported file type: " ++ file_ext), s)

/-- The PDF fallback block of `process_file` (lines 628–653): PyPDF2
fallback; when its text looks scanned and Docling is available, one
second-chance enhanced attempt with `force_ocr=True, ocr_language=['eng']`,
whose failure message is recorded under `docling_error` on the returned
fallback result. A PyPDF2 exception falls through to basic processing. -/
def pdf_fallback_block (env : Env) (file : UploadFile) (s : PState) :
    Except String ProcessOutput × PState :=
  match env.pypdf2 with
  | none => basic_processing env file s
  | some pd =>
    let fb := fallback_output env file pd
    if pyStartswith (pyStripStr (fallback_text_of fb))
        "This appears to be a scanned PDF" = true ∧ env.doclingAvailable = true then
      let p := process_file_enhanced env file true (some ["eng"]) s
      if p.1.success then (Except.ok (enhanced_success_output p.1), p.2)
      else (Except.ok { fb with docling_error := p.1.error_message }, p.2)
    else (Except.ok fb, s)

/-- `FileProcessor.process_file`: force `force_ocr` for PDFs, route through
the enhanced phase when eligible, fall back to PyPDF2 (PDFs) and to the
basic branches otherwise. Raised `ValueError`s are the `Except.error`
outcomes. -/
def process_file (env : Env) (file : UploadFile) (force_ocr : Bool)
    (ocr_language : Option (List String)) (s : PState) :
    Except String ProcessOutput × PState :=
  let file_ext := extOf file.filename
  let fo := if file_ext = "pdf" then true else force_ocr
  if should_use_enhanced_processing env file fo then
    let p := enhanced_attempts env file fo ocr_language s
    if p.1.success then (Except.ok (enhanced_success_output p.1), p.2)
    else if file_ext = "pdf" then pdf_fallback_block env file p.2
    else basic_processing env file p.2
  else basic_processing env file s

/-! ## Query fingerprint and context building (`app/routers/chats.py`,
`app/services/openai_service.py`) -/

/-- The query normalization of `send_message`:
`chat_input.message.strip().lower()`. -/
def normalizeQuery (m : String) : String :=
  pyLowerStr (pyStripStr m)

/-- The query fingerprint: the digest of the normalized query text. The
cryptographic digest (`hashlib.sha256(...).hexdigest()`) is an external
boundary, modelled as the function parameter `h`. -/
def queryFingerprint (h : String → String) (m : String) : String :=
  h (normalizeQuery m)

/-- The answer-cache key `send_message` reads and writes:
`query_cache` keyed by the chat id and the query fingerprint. -/
def answer_cache_key (h : String → String) (chat_id m : String) : String :=
  query_cache_make_key chat_id (queryFingerprint h m)

/-- Two strings that are identical up to casing and whitespace: equal after
removing every whitespace character and lowercasing (the equivalence the
claim quantifies over). -/
def eqUpToCaseWs (s₁ s₂ : String) : Bool :=
  pyLowerL (s₁.data.filter (fun c => !(pyWs c))) ==
    pyLowerL (s₂.data.filter (fun c => !(pyWs c)))

/-- The user prompt `OpenAIService.summarize_text` sends to the LLM. -/
def summPrompt (text : String) : String :=
  "Summarize the following document content in a concise, factual way, preserving key details, data, and structure. Focus on the most important points, and keep the summary under 400 words.\n\nCONTENT:\n" ++ text

/-- `OpenAIService.summarize_text`: the LLM completion on the summarization
prompt, with every exception caught and replaced by the
`[SUMMARY ERROR: ...]` marker string (never raised). The external
`chat_completion` call is the parameter `llm`, applied to the user prompt. -/
def summarize_text (llm : String → Except String String) (text : String) : String :=
  match llm (summPrompt text) with
  | Except.ok r => r
  | Except.error e => "[SUMMARY ERROR: " ++ e ++ "]"

/-- The context wrapper of `send_message` around the (possibly summarized or
truncated) file content. -/
def contextWrap (filename content : String) : String :=
  "Use the content of the file '" ++ filename ++
    "' to answer the user's question.\n--- FILE CONTENT ---\n" ++ content ++
    "\n--- END FILE CONTENT ---"

/-- The truncation note appended when the content was hard-truncated. -/
def truncNote : String := "\n[NOTE: File content truncated for token limit.]"

/-- The summarization note appended when the LLM summary was used. -/
def summNote : String := "\n[NOTE: File content summarized for token limit.]"

/-- The context-building fragment of `send_message` (lines 308–331): when the
file content exceeds 2000 characters, summarize its first 8000 characters;
use the summary only when it is non-empty and does not carry the
`[SUMMARY ERROR` marker (`if summary and not summary.startswith(...)`),
otherwise hard-truncate to 2000 characters; annotate accordingly. -/
def build_file_context (llm : String → Except String String)
    (filename content : String) : String :=
  if content.length > 2000 then
    let summary := summarize_text llm (pyTake content 8000)
    if summary ≠ "" ∧ pyStartswith summary "[SUMMARY ERROR" = false then
      contextWrap filename summary ++ summNote
    else
      contextWrap filename (pyTake content 2000) ++ truncNote
  else
    contextWrap filename content

/-- The values the process-wide `InMemoryCache` singleton stores: cached
answer strings (`query_cache`) and cached processing results
(`partial_result_cache`) share one store. -/
inductive CacheVal
  | str (s : String)
  | result (r : ProcessingResult)
  deriving DecidableEq

/-! ## Helper lemmas -/

theorem dictGet_dictSet_self {α : Type} (c : Cache α) (k : String)
    (e : CacheEntry α) : dictGet (dictSet c k e) k = some e := by
  induction c with
  | nil => simp [dictSet, dictGet]
  | cons kv rest ih =>
    obtain ⟨k', e'⟩ := kv
    by_cases h : k' = k
    · simp [dictSet, dictGet, h]
    · simp [dictSet, dictGet, h, ih]

theorem dictGet_dictSet_ne {α : Type} (c : Cache α) (k k' : String)
    (e : CacheEntry α) (h : k ≠ k') :
    dictGet (dictSet c k e) k' = dictGet c k' := by
  induction c with
  | nil => simp [dictSet, dictGet, h]
  | cons kv rest ih =>
    obtain ⟨k₀, e₀⟩ := kv
    by_cases h₀ : k₀ = k
    · subst h₀; simp [dictSet, dictGet, h]
    · simp [dictSet, dictGet, h₀, ih]

theorem cacheGet_fst_eq_of_dictGet_eq {α : Type} (c c' : Cache α) (now : Rat)
    (k : String) (h : dictGet c k = dictGet c' k) :
    (cacheGet c now k).1 = (cacheGet c' now k).1 := by
  unfold cacheGet
  rw [h]
  cases dictGet c' k with
  | none => rfl
  | some e =>
    obtain ⟨v, ca, ex⟩ := e
    cases ex with
    | none => rfl
    | some x =>
      by_cases hex : x ≠ 0 ∧ x < now
      · simp [hex]
      · simp [hex]

theorem colon_split (xs : List Char) :
    ∀ (xs' ys ys' : List Char), ':' ∉ xs → ':' ∉ xs' →
      xs ++ ':' :: ys = xs' ++ ':' :: ys' → xs = xs' ∧ ys = ys' := by
  induction xs with
  | nil =>
    intro xs' ys ys' _ h' heq
    cases xs' with
    | nil => simpa using heq
    | cons b bs =>
      exfalso
      simp at heq
      exact h' (heq.1 ▸ List.mem_cons_self b bs)
  | cons a as ih =>
    intro xs' ys ys' h h' heq
    cases xs' with
    | nil =>
      exfalso
      simp at heq
      exact h (heq.1 ▸ List.mem_cons_self a as)
    | cons b bs =>
      simp only [List.cons_append, List.cons.injEq] at heq
      obtain ⟨rfl, htl⟩ := heq
      have hr := ih bs ys ys' (fun hm => h (List.mem_cons_of_mem _ hm))
        (fun hm => h' (List.mem_cons_of_mem _ hm)) htl
      exact ⟨by rw [hr.1], hr.2⟩

theorem query_key_inj_aux (a b a' b' : String) (ha : noColon a) (ha' : noColon a')
    (h : query_cache_make_key a b = query_cache_make_key a' b') :
    a = a' ∧ b = b' := by
  unfold query_cache_make_key at h
  have hd := congrArg String.data h
  simp only [String.data_append, List.append_assoc] at hd
  have hd2 : a.data ++ ':' :: b.data = a'.data ++ ':' :: b'.data := by
    have hcancel := List.append_cancel_left hd
    simpa using hcancel
  have hr := colon_split a.data a'.data b.data b'.data ha ha' hd2
  exact ⟨String.ext hr.1, String.ext hr.2⟩

theorem pr_key_inj_aux (a b a' b' : String) (ha : noColon a) (ha' : noColon a')
    (h : partial_result_cache_make_key a b = partial_result_cache_make_key a' b') :
    a = a' ∧ b = b' := by
  unfold partial_result_cache_make_key at h
  have hd := congrArg String.data h
  simp only [String.data_append, List.append_assoc] at hd
  have hd2 : a.data ++ ':' :: b.data = a'.data ++ ':' :: b'.data := by
    have hcancel := List.append_cancel_left hd
    simpa using hcancel
  have hr := colon_split a.data a'.data b.data b'.data ha ha' hd2
  exact ⟨String.ext hr.1, String.ext hr.2⟩

theorem query_key_ne_pr_key (a b c d : String) :
    query_cache_make_key a b ≠ partial_result_cache_make_key c d := by
  intro h
  have hd := congrArg String.data h
  unfold query_cache_make_key partial_result_cache_make_key at hd
  simp only [String.data_append, List.append_assoc] at hd
  have h0 := congrArg (fun l => l.head?) hd
  simp at h0

/-! ## Claim C6 — cache-key namespacing -/

/-- C6 counterexample: `make_key` is not injective over arbitrary id pairs —
`QueryCache.make_key("a:b", "c")` and `QueryCache.make_key("a", "b:c")`
produce the same key `"faq:a:b:c"` from different input pairs, because the
`':'` separator also occurs inside the first component. -/
theorem C6_counterexample_make_key_not_injective :
    query_cache_make_key "a:b" "c" = query_cache_make_key "a" "b:c" ∧
    ¬("a:b" = "a" ∧ "c" = "b:c") := by
  decide

/-- C6 (amended): for id components free of `':'` (as the UUID chat ids, hex
query digests, filenames without colons and the fixed result-type tags
are), `QueryCache.make_key` and `PartialResultCache.make_key` are each
injective; keys of the two domains never coincide (distinct `faq:`
/`partial:` prefixes); consequently a `partial_result_cache.set("X","Y",v)`
never changes what `query_cache.get("X","Y")` returns. -/
theorem C6_amended_cache_key_namespacing :
    (∀ a b a' b' : String, noColon a → noColon a' →
      query_cache_make_key a b = query_cache_make_key a' b' → a = a' ∧ b = b') ∧
    (∀ a b a' b' : String, noColon a → noColon a' →
      partial_result_cache_make_key a b = partial_result_cache_make_key a' b' →
      a = a' ∧ b = b') ∧
    (∀ a b c d : String, query_cache_make_key a b ≠ partial_result_cache_make_key c d) ∧
    (∀ (c : Cache CacheVal) (x y : String) (v : CacheVal) (ttl : Option Rat)
      (t t' : Rat),
      (cacheGet (cacheSet c (partial_result_cache_make_key x y) v ttl t) t'
        (query_cache_make_key x y)).1 = (cacheGet c t' (query_cache_make_key x y)).1) := by
  refine ⟨query_key_inj_aux, pr_key_inj_aux, query_key_ne_pr_key, ?_⟩
  intro c x y v ttl t t'
  apply cacheGet_fst_eq_of_dictGet_eq
  unfold cacheSet
  apply dictGet_dictSet_ne
  exact fun h => query_key_ne_pr_key x y x y h.symm

/-- C6 witness: the amended injectivity applied at colon-free components, and
the cross-domain disjointness at the claim's identical raw ids. -/
theorem C6_witness_cache_key_namespacing :
    ("chat1" = "chat1" ∧ "deadbeef" = "deadbeef") ∧
    query_cache_make_key "X" "Y" ≠ partial_result_cache_make_key "X" "Y" :=
  ⟨C6_amended_cache_key_namespacing.1 "chat1" "deadbeef" "chat1" "deadbeef"
      (by decide) (by decide) rfl,
    C6_amended_cache_key_namespacing.2.2.1 "X" "Y" "X" "Y"⟩

/-! ## Claim C7 — cache set/get respects the TTL -/

/-- C7: after `set(k, v, ttl)` at wall-clock time `t0 ≥ 0` with `ttl > 0`,
`get(k)` returns `v` at any time before `t0 + ttl` and returns `None`
(absent) at any time after `t0 + ttl`, whatever else the store contains. -/
theorem C7_cache_set_get_ttl {α : Type} (c : Cache α) (k : String) (v : α)
    (ttl t0 t1 t2 : Rat) (httl : 0 < ttl) (ht0 : 0 ≤ t0)
    (hbefore : t1 < t0 + ttl) (hafter : t0 + ttl < t2) :
    (cacheGet (cacheSet c k v (some ttl) t0) t1 k).1 = some v ∧
    (cacheGet (cacheSet c k v (some ttl) t0) t2 k).1 = none := by
  have hne : ¬ttl = 0 := by intro h; rw [h] at httl; exact lt_irrefl 0 httl
  have hkey : dictGet (cacheSet c k v (some ttl) t0) k
      = some ⟨v, t0, some (t0 + ttl)⟩ := by
    simp only [cacheSet, hne, if_false]
    exact dictGet_dictSet_self c k _
  constructor
  · unfold cacheGet
    rw [hkey]
    have hcond : ¬((t0 + ttl ≠ 0) ∧ t0 + ttl < t1) := by
      rintro ⟨-, hlt⟩
      exact absurd hbefore (not_lt.mpr (le_of_lt hlt))
    simp [hcond]
  · unfold cacheGet
    rw [hkey]
    have hpos : (0 : Rat) < t0 + ttl := by linarith
    have hcond : (t0 + ttl ≠ 0) ∧ t0 + ttl < t2 := ⟨ne_of_gt hpos, hafter⟩
    simp [hcond]

/-- C7 witness: a concrete set at time 0 with ttl 10, read back at times 5
and 11. -/
theorem C7_witness_cache_set_get_ttl :
    (cacheGet (cacheSet ([] : Cache String) "k" "v" (some 10) 0) 5 "k").1 = some "v" ∧
    (cacheGet (cacheSet ([] : Cache String) "k" "v" (some 10) 0) 11 "k").1 = none :=
  C7_cache_set_get_ttl [] "k" "v" 10 0 5 11 (by norm_num) (by norm_num)
    (by norm_num) (by norm_num)

theorem dropWhile_append_of_all {p : Char → Bool} (w l : List Char)
    (hw : ∀ c ∈ w, p c = true) : (w ++ l).dropWhile p = l.dropWhile p := by
  induction w with
  | nil => simp
  | cons a as ih =>
    simp only [List.cons_append, List.dropWhile_cons]
    rw [hw a (List.mem_cons_self a as)]
    exact ih (fun c hc => hw c (List.mem_cons_of_mem _ hc))

theorem dropWhile_eq_nil_of_all {p : Char → Bool} (l : List Char)
    (h : ∀ c ∈ l, p c = true) : l.dropWhile p = [] := by
  induction l with
  | nil => rfl
  | cons a as ih =>
    simp only [List.dropWhile_cons]
    rw [h a (List.mem_cons_self a as)]
    exact ih (fun c hc => h c (List.mem_cons_of_mem _ hc))

theorem pyStripL_pad (w₁ w₂ m : List Char)
    (h₁ : ∀ c ∈ w₁, pyWs c = true) (h₂ : ∀ c ∈ w₂, pyWs c = true) :
    pyStripL (w₁ ++ m ++ w₂) = pyStripL m := by
  unfold pyStripL
  rw [List.append_assoc, dropWhile_append_of_all w₁ _ h₁]
  rw [List.dropWhile_append]
  cases hd : List.dropWhile pyWs m with
  | nil =>
    have hall : ∀ c ∈ (w₂.dropWhile pyWs).reverse, pyWs c = true := fun c hc =>
      h₂ c ((List.dropWhile_sublist pyWs).subset (List.mem_reverse.mp hc))
    simp only [List.isEmpty_nil, if_true, List.reverse_nil, List.dropWhile_nil]
    rw [dropWhile_eq_nil_of_all _ hall]
    rfl
  | cons x xs =>
    rw [if_neg (by simp)]
    rw [List.reverse_append]
    rw [dropWhile_append_of_all w₂.reverse _
      (fun c hc => h₂ c (List.mem_reverse.mp hc))]

theorem pyStripL_map (f : Char → Char) (l : List Char)
    (hf : ∀ c, pyWs (f c) = pyWs c) :
    pyStripL (l.map f) = (pyStripL l).map f := by
  have hpf : (pyWs ∘ f) = pyWs := funext hf
  have hdw : ∀ x : List Char, (x.map f).dropWhile pyWs = (x.dropWhile pyWs).map f := by
    intro x
    rw [List.dropWhile_map, hpf]
  unfold pyStripL
  rw [hdw, ← List.map_reverse, hdw, ← List.map_reverse]

/-! ## Claim C8 — query fingerprint stability -/

/-- C8 counterexample: `"a b"` and `"a  b"` are identical up to casing and
whitespace, but the normalization of `send_message` only trims the ends and
lowercases — it does not collapse interior whitespace — so the two queries
normalize differently and are fingerprinted (and cache-keyed) differently
for any digest distinguishing them (here: the identity digest; the real
SHA-256 digest likewise distinguishes these two distinct normalized
texts). -/
theorem C8_counterexample_interior_whitespace :
    eqUpToCaseWs "a b" "a  b" = true ∧
    normalizeQuery "a b" ≠ normalizeQuery "a  b" ∧
    queryFingerprint id "a b" ≠ queryFingerprint id "a  b" ∧
    answer_cache_key id "chat" "a b" ≠ answer_cache_key id "chat" "a  b" := by
  decide

/-- C8 (amended): for every two query strings that are identical up to casing
and *leading/trailing* whitespace — the second obtainable from the first by
a character-wise case change (preserving lowercase images and
whitespace-ness) plus whitespace padding at either end — the normalized
query text coincides, hence the fingerprint (for any digest function `h`)
and the answer-cache key coincide, so the second query hits the first's
cached answer within the TTL window. -/
theorem C8_amended_fingerprint_stability (h : String → String)
    (w₁ w₂ : List Char) (f : Char → Char) (s : String)
    (hw₁ : ∀ c ∈ w₁, pyWs c = true) (hw₂ : ∀ c ∈ w₂, pyWs c = true)
    (hf₁ : ∀ c, Char.toLower (f c) = Char.toLower c)
    (hf₂ : ∀ c, pyWs (f c) = pyWs c) :
    normalizeQuery (String.mk (w₁ ++ s.data.map f ++ w₂)) = normalizeQuery s ∧
    queryFingerprint h (String.mk (w₁ ++ s.data.map f ++ w₂)) = queryFingerprint h s ∧
    (∀ chat_id : String,
      answer_cache_key h chat_id (String.mk (w₁ ++ s.data.map f ++ w₂)) =
        answer_cache_key h chat_id s) := by
  have hnorm : normalizeQuery (String.mk (w₁ ++ s.data.map f ++ w₂)) =
      normalizeQuery s := by
    unfold normalizeQuery pyLowerStr pyStripStr
    apply congrArg String.mk
    show pyLowerL (pyStripL (w₁ ++ s.data.map f ++ w₂)) = pyLowerL (pyStripL s.data)
    rw [pyStripL_pad w₁ w₂ _ hw₁ hw₂, pyStripL_map f _ hf₂]
    unfold pyLowerL
    rw [List.map_map]
    exact List.map_congr_left (fun c _ => hf₁ c)
  refine ⟨hnorm, ?_, ?_⟩
  · unfold queryFingerprint
    rw [hnorm]
  · intro chat_id
    unfold answer_cache_key queryFingerprint
    rw [hnorm]

/-- C8 witness: `" Hi\n"` — `"hi"` case-flipped on its first letter and
padded with whitespace — normalizes, fingerprints and cache-keys like
`"hi"` under a concrete digest. -/
theorem C8_witness_fingerprint_stability :
    normalizeQuery (String.mk ([' '] ++
        "hi".data.map (fun c => if c = 'h' then 'H' else c) ++ ['\n'])) =
      normalizeQuery "hi" ∧
    queryFingerprint id (String.mk ([' '] ++
        "hi".data.map (fun c => if c = 'h' then 'H' else c) ++ ['\n'])) =
      queryFingerprint id "hi" ∧
    (∀ chat_id : String,
      answer_cache_key id chat_id (String.mk ([' '] ++
          "hi".data.map (fun c => if c = 'h' then 'H' else c) ++ ['\n'])) =
        answer_cache_key id chat_id "hi") :=
  C8_amended_fingerprint_stability id [' '] ['\n']
    (fun c => if c = 'h' then 'H' else c) "hi"
    (by decide) (by decide)
    (fun c => by
      by_cases hc : c = 'h'
      · subst hc; decide
      · simp [hc])
    (fun c => by
      by_cases hc : c = 'h'
      · subst hc; decide
      · simp [hc])

/-! ## Claim C9 — summarization fallback in context building -/

theorem listStarts_refl (p : List Char) : listStarts p p = true := by
  induction p with
  | nil => rfl
  | cons a as ih => simp [listStarts, ih]

theorem listStarts_nil_right (a : List Char) : listStarts a [] = true := by
  cases a <;> rfl

theorem listStarts_append_left (p : List Char) :
    ∀ a t : List Char, listStarts a p = true → listStarts (a ++ t) p = true := by
  induction p with
  | nil => intro a t _; exact listStarts_nil_right _
  | cons b bs ih =>
    intro a t h
    cases a with
    | nil => exact absurd h (by simp [listStarts])
    | cons x xs =>
      simp only [listStarts, Bool.and_eq_true] at h
      simp only [List.cons_append, listStarts, Bool.and_eq_true]
      exact ⟨h.1, ih xs t h.2⟩

theorem summary_error_marker_starts (e : String) :
    pyStartswith ("[SUMMARY ERROR: " ++ e ++ "]") "[SUMMARY ERROR" = true := by
  unfold pyStartswith
  simp only [String.data_append]
  apply listStarts_append_left
  apply listStarts_append_left
  decide

/-- C9 (amended): for every file content longer than 2000 characters, if the
LLM call on the first 8000 characters errors, `summarize_text` catches the
exception and returns the `[SUMMARY ERROR: ...]` marker string instead of
raising, and the context used is the first 2000 characters of the content
with the truncation note appended — a summarization failure is never fatal
to the request; if the LLM call succeeds with a non-empty summary that does
not begin with the error marker, the summary is used with the
summarization note. (An empty successful summary also falls back to
truncation.) -/
theorem C9_amended_summarization_fallback (llm : String → Except String String)
    (fn content : String) (hlen : 2000 < content.length) :
    (∀ e, llm (summPrompt (pyTake content 8000)) = Except.error e →
      build_file_context llm fn content =
        contextWrap fn (pyTake content 2000) ++ truncNote) ∧
    (∀ r, llm (summPrompt (pyTake content 8000)) = Except.ok r → r ≠ "" →
      pyStartswith r "[SUMMARY ERROR" = false →
      build_file_context llm fn content = contextWrap fn r ++ summNote) := by
  constructor
  · intro e he
    unfold build_file_context
    rw [if_pos hlen]
    unfold summarize_text
    rw [he]
    have hcond : ¬(("[SUMMARY ERROR: " ++ e ++ "]") ≠ "" ∧
        pyStartswith ("[SUMMARY ERROR: " ++ e ++ "]") "[SUMMARY ERROR" = false) := by
      rintro ⟨-, hfalse⟩
      have hm := summary_error_marker_starts e
      rw [hfalse] at hm
      exact Bool.noConfusion hm
    rw [if_neg hcond]
  · intro r hr hne hnm
    unfold build_file_context
    rw [if_pos hlen]
    unfold summarize_text
    rw [hr]
    rw [if_pos ⟨hne, hnm⟩]

set_option maxRecDepth 10000

theorem build_file_context_empty_summary (llm : String → Except String String)
    (fn content : String) (hlen : 2000 < content.length)
    (h : llm (summPrompt (pyTake content 8000)) = Except.ok "") :
    build_file_context llm fn content =
      contextWrap fn (pyTake content 2000) ++ truncNote := by
  unfold build_file_context
  rw [if_pos hlen]
  unfold summarize_text
  rw [h]
  rw [if_neg]
  rintro ⟨hne, -⟩
  exact hne rfl

/-- C9 counterexample: a summarizer that succeeds (no exception, no
`[SUMMARY ERROR` marker) but returns the empty string does *not* have its
summary used — `if summary and not summary.startswith(...)` treats the
empty string as falsy, so the code falls back to truncation, while the
claim says a successful summarization's summary is used with a
summarization note. -/
theorem C9_counterexample_empty_summary :
    build_file_context (fun _ => Except.ok "") "f"
        (String.mk (List.replicate 2001 'a')) =
      contextWrap "f" (pyTake (String.mk (List.replicate 2001 'a')) 2000) ++ truncNote ∧
    build_file_context (fun _ => Except.ok "") "f"
        (String.mk (List.replicate 2001 'a')) ≠
      contextWrap "f" "" ++ summNote := by
  have hlen : 2000 < (String.mk (List.replicate 2001 'a')).length := by
    show 2000 < (List.replicate 2001 'a').length
    rw [List.length_replicate]
    norm_num
  have h1 := build_file_context_empty_summary (fun _ => Except.ok "") "f"
    (String.mk (List.replicate 2001 'a')) hlen rfl
  refine ⟨h1, ?_⟩
  rw [h1]
  intro heq
  have hL := congrArg String.length heq
  have hlen2000 : (pyTake (String.mk (List.replicate 2001 'a')) 2000).length = 2000 := by
    show (List.take 2000 (List.replicate 2001 'a')).length = 2000
    rw [List.length_take, List.length_replicate]
    norm_num
  simp only [contextWrap, String.length_append, hlen2000] at hL
  revert hL
  decide

/-- C9 witness: a concrete erroring LLM yields the truncated context, and a
concrete successful LLM yields the summarized context, on a 2001-character
content. -/
theorem C9_witness_summarization_fallback :
    build_file_context (fun _ => Except.error "quota") "f"
        (String.mk (List.replicate 2001 'b')) =
      contextWrap "f" (pyTake (String.mk (List.replicate 2001 'b')) 2000) ++ truncNote ∧
    build_file_context (fun _ => Except.ok "a summary") "f"
        (String.mk (List.replicate 2001 'b')) =
      contextWrap "f" "a summary" ++ summNote := by
  have hlen : 2000 < (String.mk (List.replicate 2001 'b')).length := by
    show 2000 < (List.replicate 2001 'b').length
    rw [List.length_replicate]
    norm_num
  exact ⟨(C9_amended_summarization_fallback (fun _ => Except.error "quota") "f"
      (String.mk (List.replicate 2001 'b')) hlen).1 "quota" rfl,
    (C9_amended_summarization_fallback (fun _ => Except.ok "a summary") "f"
      (String.mk (List.replicate 2001 'b')) hlen).2 "a summary" rfl
      (by decide) (by decide)⟩

/-! ## Rewrite lemmas for `process_file_enhanced` runs on an empty
partial-result cache -/

theorem pfe_cache_empty_docling_off (env : Env) (file : UploadFile)
    (fo : Bool) (lang : Option (List String)) (i : Nat)
    (l : List (Bool × Option (List String)))
    (hav : env.doclingAvailable = false) :
    process_file_enhanced env file fo lang ⟨[], i, l⟩ =
      (docling_unavailable_result env.elapsed, ⟨[], i + 1, l⟩) := by
  simp [process_file_enhanced, cacheGet, dictGet, hav]

theorem pfe_cache_empty_resource_fail (env : Env) (file : UploadFile)
    (fo : Bool) (lang : Option (List String)) (i : Nat)
    (l : List (Bool × Option (List String)))
    (hav : env.doclingAvailable = true)
    (hres : check_system_resources env.maxMemoryMB (env.resources i) = false) :
    process_file_enhanced env file fo lang ⟨[], i, l⟩ =
      (resource_failure_result env.elapsed, ⟨[], i + 1, l⟩) := by
  simp [process_file_enhanced, cacheGet, dictGet, hav, hres]

theorem pfe_cache_empty_engine_fail (env : Env) (file : UploadFile)
    (fo : Bool) (lang : Option (List String)) (i : Nat)
    (l : List (Bool × Option (List String)))
    (hav : env.doclingAvailable = true)
    (hres : check_system_resources env.maxMemoryMB (env.resources i) = true)
    (hfail : (env.engine i fo (normLang lang)).isSuccess = false) :
    process_file_enhanced env file fo lang ⟨[], i, l⟩ =
      (enh_failure_result (errMsgOf (env.engine i fo (normLang lang))) env.elapsed,
        ⟨[], i + 1, l ++ [(fo, normLang lang)]⟩) := by
  cases heng : env.engine i fo (normLang lang) with
  | success md dt =>
    rw [heng] at hfail
    exact absurd hfail (by simp [EngineOutcome.isSuccess])
  | timedOut m =>
    simp [process_file_enhanced, cacheGet, dictGet, hav, hres, heng, errMsgOf]
  | memoryError =>
    simp [process_file_enhanced, cacheGet, dictGet, hav, hres, heng, errMsgOf]
  | exception m =>
    simp [process_file_enhanced, cacheGet, dictGet, hav, hres, heng, errMsgOf]

theorem pfe_cache_empty_engine_success (env : Env) (file : UploadFile)
    (fo : Bool) (lang : Option (List String)) (i : Nat)
    (l : List (Bool × Option (List String))) (md dt : String)
    (hav : env.doclingAvailable = true)
    (hres : check_system_resources env.maxMemoryMB (env.resources i) = true)
    (heng : env.engine i fo (normLang lang) = EngineOutcome.success md dt) :
    process_file_enhanced env file fo lang ⟨[], i, l⟩ =
      (docling_success_result env file fo lang md dt,
        ⟨cacheSet [] (partial_result_cache_make_key file.filename "ocr")
            (docling_success_result env file fo lang md dt) (some 3600) env.now,
          i + 1, l ++ [(fo, normLang lang)]⟩) := by
  simp [process_file_enhanced, cacheGet, dictGet, hav, hres, heng]

theorem enh_failure_not_success (m : Option String) (t : Rat) :
    (enh_failure_result m t).success = false := rfl

theorem resource_failure_not_success (t : Rat) :
    (resource_failure_result t).success = false := rfl

theorem docling_unavailable_not_success (t : Rat) :
    (docling_unavailable_result t).success = false := rfl

theorem docling_success_is_success (env : Env) (file : UploadFile) (fo : Bool)
    (lang : Option (List String)) (md dt : String) :
    (docling_success_result env file fo lang md dt).success = true := rfl

/-! ## Claim C10 — only successful results are cached -/

theorem mem_dictSet {α : Type} (c : Cache α) (k : String) (e : CacheEntry α)
    (kv : String × CacheEntry α) :
    kv ∈ dictSet c k e → kv = (k, e) ∨ kv ∈ c := by
  induction c with
  | nil => intro h; simp [dictSet] at h; exact Or.inl h
  | cons kv0 rest ih =>
    obtain ⟨k0, e0⟩ := kv0
    by_cases h0 : k0 = k
    · intro h
      simp only [dictSet, h0, if_pos, List.mem_cons] at h
      rcases h with h | h
      · exact Or.inl h
      · exact Or.inr (List.mem_cons_of_mem _ h)
    · intro h
      simp only [dictSet, h0, if_false, List.mem_cons] at h
      rcases h with h | h
      · exact Or.inr (by simp [h])
      · rcases ih h with h' | h'
        · exact Or.inl h'
        · exact Or.inr (List.mem_cons_of_mem _ h')

theorem mem_dictDel {α : Type} (c : Cache α) (k : String)
    (kv : String × CacheEntry α) : kv ∈ dictDel c k → kv ∈ c := by
  induction c with
  | nil => intro h; exact h
  | cons kv0 rest ih =>
    obtain ⟨k0, e0⟩ := kv0
    by_cases h0 : k0 = k
    · intro h
      simp only [dictDel, h0, if_pos] at h
      exact List.mem_cons_of_mem _ h
    · intro h
      simp only [dictDel, h0, if_false, List.mem_cons] at h
      rcases h with h | h
      · exact by simp [h]
      · exact List.mem_cons_of_mem _ (ih h)

theorem dictGet_mem {α : Type} (c : Cache α) (k : String) (e : CacheEntry α) :
    dictGet c k = some e → (k, e) ∈ c := by
  induction c with
  | nil => intro h; exact absurd h (by simp [dictGet])
  | cons kv0 rest ih =>
    obtain ⟨k0, e0⟩ := kv0
    by_cases h0 : k0 = k
    · subst h0
      intro h
      simp [dictGet] at h
      subst h
      exact List.mem_cons_self _ _
    · intro h
      simp [dictGet, h0] at h
      exact List.mem_cons_of_mem _ (ih h)

theorem mem_cacheGet_snd {α : Type} (c : Cache α) (now : Rat) (k : String)
    (kv : String × CacheEntry α) : kv ∈ (cacheGet c now k).2 → kv ∈ c := by
  unfold cacheGet
  cases hd : dictGet c k with
  | none => exact id
  | some e =>
    obtain ⟨v, ca, ex⟩ := e
    cases ex with
    | none => exact id
    | some x =>
      by_cases hx : x ≠ 0 ∧ x < now
      · show kv ∈ (if x ≠ 0 ∧ x < now then (none, dictDel c k) else (some v, c)).2 →
          kv ∈ c
        rw [if_pos hx]
        exact mem_dictDel c k kv
      · show kv ∈ (if x ≠ 0 ∧ x < now then (none, dictDel c k) else (some v, c)).2 →
          kv ∈ c
        rw [if_neg hx]
        exact id

theorem cacheGet_fst_some {α : Type} (c : Cache α) (now : Rat) (k : String)
    (v : α) : (cacheGet c now k).1 = some v → ∃ e, (k, e) ∈ c ∧ e.value = v := by
  unfold cacheGet
  cases hd : dictGet c k with
  | none => intro h; exact absurd h (by simp)
  | some e =>
    obtain ⟨w, ca, ex⟩ := e
    cases ex with
    | none =>
      intro h
      have hw : w = v := by simpa using h
      exact ⟨⟨w, ca, none⟩, dictGet_mem c k _ hd, hw⟩
    | some x =>
      by_cases hx : x ≠ 0 ∧ x < now
      · show (if x ≠ 0 ∧ x < now then (none, dictDel c k) else (some w, c)).1 = some v →
          ∃ e, (k, e) ∈ c ∧ e.value = v
        rw [if_pos hx]
        intro h
        exact absurd h (by simp)
      · show (if x ≠ 0 ∧ x < now then (none, dictDel c k) else (some w, c)).1 = some v →
          ∃ e, (k, e) ∈ c ∧ e.value = v
        rw [if_neg hx]
        intro h
        have hw : w = v := by simpa using h
        exact ⟨⟨w, ca, some x⟩, dictGet_mem c k _ hd, hw⟩

/-- C10: `process_file_enhanced` stores a result in the partial-result cache
only on its success path. If every cached entry holds a successful result,
that invariant is preserved by any call; a call returning `success=False`
leaves the store exactly as the initial cache read left it (no write); and
a cache read can only ever surface a successful result, so a later call for
a file whose earlier processing failed re-runs extraction rather than
returning a cached failure. -/
theorem C10_partial_cache_only_success (env : Env) (file : UploadFile)
    (fo : Bool) (lang : Option (List String)) (s : PState)
    (hinv : ∀ kv ∈ s.cache, kv.2.value.success = true) :
    (∀ kv ∈ (process_file_enhanced env file fo lang s).2.cache,
      kv.2.value.success = true) ∧
    ((process_file_enhanced env file fo lang s).1.success = false →
      (process_file_enhanced env file fo lang s).2.cache =
        (cacheGet s.cache env.now
          (partial_result_cache_make_key file.filename "ocr")).2) ∧
    (∀ r, (cacheGet s.cache env.now
        (partial_result_cache_make_key file.filename "ocr")).1 = some r →
      r.success = true) := by
  have hc2 : ∀ kv ∈ (cacheGet s.cache env.now
      (partial_result_cache_make_key file.filename "ocr")).2,
      kv.2.value.success = true :=
    fun kv hkv => hinv kv (mem_cacheGet_snd _ _ _ _ hkv)
  have hhit : ∀ r, (cacheGet s.cache env.now
      (partial_result_cache_make_key file.filename "ocr")).1 = some r →
      r.success = true := by
    intro r hr
    obtain ⟨e, hmem, hval⟩ := cacheGet_fst_some _ _ _ _ hr
    have h := hinv (_, e) hmem
    rw [hval] at h
    exact h
  refine ⟨?_, ?_, hhit⟩
  · simp only [process_file_enhanced]
    cases hg : (cacheGet s.cache env.now
        (partial_result_cache_make_key file.filename "ocr")).1 with
    | some cached => exact hc2
    | none =>
      by_cases hav : env.doclingAvailable = false
      · simp only [hav, eq_self_iff_true, if_true]
        exact hc2
      · simp only [hav, if_false]
        by_cases hres : check_system_resources env.maxMemoryMB
            (env.resources s.invocations) = false
        · simp only [hres, eq_self_iff_true, if_true]
          exact hc2
        · simp only [hres, if_false]
          cases heng : env.engine s.invocations fo (normLang lang) with
          | success md dt =>
            intro kv hkv
            rcases mem_dictSet _ _ _ _ hkv with h | h
            · rw [h]
              rfl
            · exact hc2 kv h
          | timedOut m => exact hc2
          | memoryError => exact hc2
          | exception m => exact hc2
  · simp only [process_file_enhanced]
    cases hg : (cacheGet s.cache env.now
        (partial_result_cache_make_key file.filename "ocr")).1 with
    | some cached => intro _; trivial
    | none =>
      by_cases hav : env.doclingAvailable = false
      · simp only [hav, eq_self_iff_true, if_true]
        intro _; trivial
      · simp only [hav, if_false]
        by_cases hres : check_system_resources env.maxMemoryMB
            (env.resources s.invocations) = false
        · simp only [hres, eq_self_iff_true, if_true]
          intro _; trivial
        · simp only [hres, if_false]
          cases heng : env.engine s.invocations fo (normLang lang) with
          | success md dt =>
            intro hfalse
            exact absurd hfalse (by simp [docling_success_result])
          | timedOut m => intro _; trivial
          | memoryError => intro _; trivial
          | exception m => intro _; trivial

/-- A concrete witness environment: Docling available, ample resources, an
engine failing deterministically on every call, and simple basic-parser
oracles. -/
def envFailEngine : Env :=
  { doclingAvailable := true
    maxMemoryMB := 2048
    resources := fun _ => ResourceReading.ok 4096 10
    engine := fun _ _ _ => EngineOutcome.exception "boom"
    pypdf2 := some ⟨1, "hello world"⟩
    jsonParse := some "obj"
    csvParse := some ⟨"recs", 3, ["a"]⟩
    excelParse := some ⟨"recs", 2, ["b"]⟩
    utf8Decode := Except.ok "text"
    b64 := fun _ => "QUJD"
    now := 100
    elapsed := 1 }

/-- A concrete PDF upload used by witnesses. -/
def filePdf : UploadFile := ⟨"doc.pdf", "PDFBYTES"⟩

/-- C10 witness: the cached-success invariant instantiated at an empty cache
and a deterministically failing engine. -/
theorem C10_witness_partial_cache_only_success :
    (∀ kv ∈ (process_file_enhanced envFailEngine filePdf false none
        ⟨[], 0, []⟩).2.cache, kv.2.value.success = true) ∧
    ((process_file_enhanced envFailEngine filePdf false none ⟨[], 0, []⟩).1.success
        = false →
      (process_file_enhanced envFailEngine filePdf false none ⟨[], 0, []⟩).2.cache =
        (cacheGet ([] : Cache ProcessingResult) envFailEngine.now
          (partial_result_cache_make_key filePdf.filename "ocr")).2) ∧
    (∀ r, (cacheGet ([] : Cache ProcessingResult) envFailEngine.now
        (partial_result_cache_make_key filePdf.filename "ocr")).1 = some r →
      r.success = true) :=
  C10_partial_cache_only_success envFailEngine filePdf false none ⟨[], 0, []⟩
    (by simp)

/-! ## Claim C2 — bounded retry of the enhanced engine -/

theorem normLang_pyOrDefault (lang : Option (List String)) :
    normLang (some (pyOrDefault lang)) = some (pyOrDefault lang) := by
  cases lang with
  | none => rfl
  | some xs => cases xs <;> rfl

/-- C2: on an empty partial-result cache, with Docling available, sufficient
resources, and an enhanced engine that fails deterministically on every
call, the enhanced phase of `process_file` invokes the engine exactly twice
— the initial attempt with the caller's options, plus exactly one retry
with `force_ocr` forced true and the language hint defaulted
(`ocr_language or ['en']`) — and hands a failure to the fallback path, so
the basic fallback is reached after at most two engine invocations. -/
theorem C2_retry_bound (env : Env) (file : UploadFile) (fo : Bool)
    (lang : Option (List String)) (i : Nat)
    (l : List (Bool × Option (List String)))
    (hav : env.doclingAvailable = true)
    (hres : ∀ j, check_system_resources env.maxMemoryMB (env.resources j) = true)
    (hfail : ∀ j f lg, (env.engine j f lg).isSuccess = false) :
    enhanced_attempts env file fo lang ⟨[], i, l⟩ =
      (enh_failure_result
          (errMsgOf (env.engine (i + 1) true (some (pyOrDefault lang)))) env.elapsed,
        ⟨[], i + 2, l ++ [(fo, normLang lang), (true, some (pyOrDefault lang))]⟩) := by
  unfold enhanced_attempts
  rw [pfe_cache_empty_engine_fail env file fo lang i l hav (hres i) (hfail _ _ _)]
  rw [if_neg (by simp [enh_failure_not_success])]
  rw [pfe_cache_empty_engine_fail env file true (some (pyOrDefault lang)) (i + 1)
    (l ++ [(fo, normLang lang)]) hav (hres (i + 1)) (hfail _ _ _)]
  rw [normLang_pyOrDefault]
  simp

/-- C2 witness: a DOCX upload against the failing-engine environment. -/
theorem C2_witness_retry_bound :
    enhanced_attempts envFailEngine ⟨"report.docx", "DOCXBYTES"⟩ false none
        ⟨[], 0, []⟩ =
      (enh_failure_result
          (errMsgOf (envFailEngine.engine 1 true (some (pyOrDefault none))))
          envFailEngine.elapsed,
        ⟨[], 2, [(false, normLang none), (true, some (pyOrDefault none))]⟩) := by
  have h := C2_retry_bound envFailEngine ⟨"report.docx", "DOCXBYTES"⟩ false none 0 []
    rfl
    (fun j => by
      show check_system_resources 2048 (ResourceReading.ok 4096 10) = true
      decide)
    (fun j f lg => rfl)
  simpa using h

/-! ## Log-extension lemmas: every phase only appends engine invocations -/

theorem pfe_log_mono (env : Env) (file : UploadFile) (fo : Bool)
    (lang : Option (List String)) (s : PState) :
    ∃ t, (process_file_enhanced env file fo lang s).2.log = s.log ++ t := by
  simp only [process_file_enhanced]
  cases (cacheGet s.cache env.now
      (partial_result_cache_make_key file.filename "ocr")).1 with
  | some cached => exact ⟨[], by simp⟩
  | none =>
    by_cases hav : env.doclingAvailable = false
    · simp only [hav, eq_self_iff_true, if_true]
      exact ⟨[], by simp⟩
    · simp only [hav, if_false]
      by_cases hres : check_system_resources env.maxMemoryMB
          (env.resources s.invocations) = false
      · simp only [hres, eq_self_iff_true, if_true]
        exact ⟨[], by simp⟩
      · simp only [hres, if_false]
        cases env.engine s.invocations fo (normLang lang) with
        | success md dt => exact ⟨[(fo, normLang lang)], rfl⟩
        | timedOut m => exact ⟨[(fo, normLang lang)], rfl⟩
        | memoryError => exact ⟨[(fo, normLang lang)], rfl⟩
        | exception m => exact ⟨[(fo, normLang lang)], rfl⟩

theorem basic_log_mono (env : Env) (file : UploadFile) (s : PState) :
    ∃ t, (basic_processing env file s).2.log = s.log ++ t := by
  simp only [basic_processing]
  split
  · split <;> exact ⟨[], by simp⟩
  · split
    · split <;> exact ⟨[], by simp⟩
    · split
      · split
        · obtain ⟨t, ht⟩ := pfe_log_mono env file true none s
          split <;> exact ⟨t, ht⟩
        · exact ⟨[], by simp⟩
      · split
        · split <;> exact ⟨[], by simp⟩
        · split
          · split <;> exact ⟨[], by simp⟩
          · split
            · exact ⟨[], by simp⟩
            · exact ⟨[], by simp⟩

theorem pdf_fallback_log_mono (env : Env) (file : UploadFile) (s : PState) :
    ∃ t, (pdf_fallback_block env file s).2.log = s.log ++ t := by
  simp only [pdf_fallback_block]
  split
  · exact basic_log_mono env file s
  · split
    · obtain ⟨t, ht⟩ := pfe_log_mono env file true (some ["eng"]) s
      split <;> exact ⟨t, ht⟩
    · exact ⟨[], by simp⟩

theorem enhanced_attempts_first_fail (env : Env) (file : UploadFile) (fo : Bool)
    (lang : Option (List String)) (i : Nat)
    (l : List (Bool × Option (List String)))
    (hav : env.doclingAvailable = true)
    (hres : check_system_resources env.maxMemoryMB (env.resources i) = true)
    (hfail1 : (env.engine i fo (normLang lang)).isSuccess = false) :
    enhanced_attempts env file fo lang ⟨[], i, l⟩ =
      process_file_enhanced env file true (some (pyOrDefault lang))
        ⟨[], i + 1, l ++ [(fo, normLang lang)]⟩ := by
  unfold enhanced_attempts
  rw [pfe_cache_empty_engine_fail env file fo lang i l hav hres hfail1]
  simp [enh_failure_not_success]

theorem enhanced_attempts_first_success (env : Env) (file : UploadFile)
    (fo : Bool) (lang : Option (List String)) (i : Nat)
    (l : List (Bool × Option (List String))) (md dt : String)
    (hav : env.doclingAvailable = true)
    (hres : check_system_resources env.maxMemoryMB (env.resources i) = true)
    (heng : env.engine i fo (normLang lang) = EngineOutcome.success md dt) :
    enhanced_attempts env file fo lang ⟨[], i, l⟩ =
      (docling_success_result env file fo lang md dt,
        ⟨cacheSet [] (partial_result_cache_make_key file.filename "ocr")
            (docling_success_result env file fo lang md dt) (some 3600) env.now,
          i + 1, l ++ [(fo, normLang lang)]⟩) := by
  unfold enhanced_attempts
  rw [pfe_cache_empty_engine_success env file fo lang i l md dt hav hres heng]
  simp [docling_success_result]

/-! ## Claim C5 — PDFs always force OCR internally -/

/-- C5: for every file whose lowercased last extension segment is `pdf`
(whatever `force_ocr` the caller supplied), `process_file` selects the
enhanced path, and the first enhanced-engine invocation it performs carries
`force_ocr = true`: on an empty partial-result cache with Docling available
and resources sufficient for the first check, the invocation log continues
with `(true, lang)` — never `(false, _)`. -/
theorem C5_pdf_forces_ocr (env : Env) (file : UploadFile) (fo : Bool)
    (lang : Option (List String)) (i : Nat)
    (l : List (Bool × Option (List String)))
    (hext : extOf file.filename = "pdf")
    (hav : env.doclingAvailable = true)
    (hres : check_system_resources env.maxMemoryMB (env.resources i) = true) :
    should_use_enhanced_processing env file true = true ∧
    ∃ rest, (process_file env file fo lang ⟨[], i, l⟩).2.log =
      l ++ (true, normLang lang) :: rest := by
  have hshould : should_use_enhanced_processing env file true = true := by
    simp [should_use_enhanced_processing, hav]
  refine ⟨hshould, ?_⟩
  simp only [process_file, hext, eq_self_iff_true, if_true, hshould]
  by_cases hs : (env.engine i true (normLang lang)).isSuccess = true
  · obtain ⟨md, dt, heng⟩ : ∃ md dt,
        env.engine i true (normLang lang) = EngineOutcome.success md dt := by
      cases h : env.engine i true (normLang lang) <;>
        simp_all [EngineOutcome.isSuccess]
    rw [enhanced_attempts_first_success env file true lang i l md dt hav hres heng]
    exact ⟨[], by simp [docling_success_result]⟩
  · have hfail1 : (env.engine i true (normLang lang)).isSuccess = false := by
      simpa using hs
    rw [enhanced_attempts_first_fail env file true lang i l hav hres hfail1]
    obtain ⟨t2, ht2⟩ := pfe_log_mono env file true (some (pyOrDefault lang))
      ⟨[], i + 1, l ++ [(true, normLang lang)]⟩
    split
    · exact ⟨t2, by rw [ht2]; simp⟩
    · obtain ⟨t3, ht3⟩ := pdf_fallback_log_mono env file
        (process_file_enhanced env file true (some (pyOrDefault lang))
          ⟨[], i + 1, l ++ [(true, normLang lang)]⟩).2
      exact ⟨t2 ++ t3, by rw [ht3, ht2]; simp⟩

/-- C5 witness: a caller-supplied `force_ocr=false` PDF upload still logs its
first engine invocation with `force_ocr=true`. -/
theorem C5_witness_pdf_forces_ocr :
    should_use_enhanced_processing envFailEngine filePdf true = true ∧
    ∃ rest, (process_file envFailEngine filePdf false none ⟨[], 0, []⟩).2.log =
      [] ++ (true, normLang none) :: rest :=
  C5_pdf_forces_ocr envFailEngine filePdf false none 0 [] (by decide) rfl
    (by
      show check_system_resources 2048 (ResourceReading.ok 4096 10) = true
      decide)

/-! ## Claim C4 — scanned-PDF second chance is exactly one extra attempt -/

/-- C4: for a PDF on an empty partial-result cache, with Docling available,
sufficient resources and an engine failing deterministically, when the
PyPDF2 fallback output carries the "looks scanned" marker, `process_file`
makes exactly one additional enhanced attempt — the third and last engine
invocation, with `force_ocr=true` and language `['eng']` — and, that
attempt failing too, returns the PyPDF2 fallback result (with the failure
recorded under `docling_error`): the invocation log shows exactly three
engine calls, never more. -/
theorem C4_scanned_pdf_second_chance (env : Env) (file : UploadFile)
    (fo : Bool) (lang : Option (List String)) (i : Nat)
    (l : List (Bool × Option (List String))) (pd : Pypdf2Data)
    (hext : extOf file.filename = "pdf")
    (hav : env.doclingAvailable = true)
    (hres : ∀ j, check_system_resources env.maxMemoryMB (env.resources j) = true)
    (hfail : ∀ j f lg, (env.engine j f lg).isSuccess = false)
    (hpd : env.pypdf2 = some pd)
    (hscan : pyStartswith (pyStripStr (fallback_text_of (fallback_output env file pd)))
        "This appears to be a scanned PDF" = true) :
    process_file env file fo lang ⟨[], i, l⟩ =
      (Except.ok { fallback_output env file pd with
          docling_error := errMsgOf (env.engine (i + 2) true (some ["eng"])) },
        ⟨[], i + 3,
          l ++ [(true, normLang lang), (true, some (pyOrDefault lang)),
            (true, some ["eng"])]⟩) := by
  have hshould : should_use_enhanced_processing env file true = true := by
    simp [should_use_enhanced_processing, hav]
  simp only [process_file, hext, eq_self_iff_true, if_true, hshould]
  rw [enhanced_attempts_first_fail env file true lang i l hav (hres i) (hfail _ _ _)]
  rw [pfe_cache_empty_engine_fail env file true (some (pyOrDefault lang)) (i + 1)
    (l ++ [(true, normLang lang)]) hav (hres (i + 1)) (hfail _ _ _)]
  rw [normLang_pyOrDefault]
  rw [if_neg (by simp [enh_failure_not_success])]
  simp only [pdf_fallback_block, hpd]
  rw [if_pos ⟨hscan, hav⟩]
  rw [pfe_cache_empty_engine_fail env file true (some ["eng"]) (i + 2)
    (l ++ [(true, normLang lang)] ++ [(true, some (pyOrDefault lang))]) hav
    (hres (i + 2)) (hfail _ _ _)]
  rw [if_neg (by simp [enh_failure_not_success])]
  simp [enh_failure_result, List.append_assoc, normLang]

/-- The witness environment with a PyPDF2 reading that extracts no text
(scanned PDF). -/
def envScanned : Env :=
  { envFailEngine with pypdf2 := some ⟨0, ""⟩ }

/-- C4 witness: a scanned PDF against the failing-engine environment — three
logged engine invocations, then the PyPDF2 fallback result with the
second-chance failure under `docling_error`. -/
theorem C4_witness_scanned_pdf_second_chance :
    process_file envScanned filePdf false none ⟨[], 0, []⟩ =
      (Except.ok { fallback_output envScanned filePdf ⟨0, ""⟩ with
          docling_error := errMsgOf (envScanned.engine 2 true (some ["eng"])) },
        ⟨[], 3,
          [(true, normLang none), (true, some (pyOrDefault none)),
            (true, some ["eng"])]⟩) := by
  have h := C4_scanned_pdf_second_chance envScanned filePdf false none 0 [] ⟨0, ""⟩
    (by decide) rfl
    (fun j => by
      show check_system_resources 2048 (ResourceReading.ok 4096 10) = true
      decide)
    (fun j f lg => rfl) rfl (by decide)
  simpa using h

/-! ## Claim C3 — unsupported extensions -/

/-- Every extension `process_file` handles, via any branch: the
enhanced-eligible set plus all basic-branch sets. -/
def supported_extensions : List String :=
  enhanced_formats ++
  ["json", "csv",
   "jpg", "jpeg", "png", "gif", "bmp", "tiff", "webp",
   "xlsx", "xls",
   "txt", "md", "rtf", "html", "xml", "yaml", "yml",
   "pdf", "docx", "doc", "odt"]

/-- The witness environment with an engine that succeeds on every call. -/
def envOkEngine : Env :=
  { envFailEngine with engine := fun _ _ _ => EngineOutcome.success "MD" "pdf" }

/-- C3 counterexample: with the caller-supplied `force_ocr=true` and Docling
available, `process_file` on `file.xyz` (extension outside every supported
set) does invoke the enhanced engine — the invocation log is non-empty —
and when the engine succeeds it even returns a success rather than an
unsupported-format error. -/
theorem C3_counterexample_force_ocr_bypasses_routing :
    (process_file envOkEngine ⟨"file.xyz", "BYTES"⟩ true none ⟨[], 0, []⟩).1 =
      Except.ok (enhanced_success_output
        (docling_success_result envOkEngine ⟨"file.xyz", "BYTES"⟩ true none
          "MD" "pdf")) ∧
    (process_file envOkEngine ⟨"file.xyz", "BYTES"⟩ true none ⟨[], 0, []⟩).2.log =
      [(true, none)] ∧
    "xyz" ∉ supported_extensions := by
  exact ⟨rfl, rfl, by decide⟩

/-- C3 (amended): for every file whose lowercased last extension segment is
outside the supported set, *when the caller-supplied `force_ocr` flag is
false*, `process_file` fails with the descriptive
`Unsupported file type: <ext>` error, and no extraction engine is invoked —
the state (cache, invocation counter, log) is returned unchanged. With
`force_ocr=true` and Docling available the enhanced engine is invoked even
for unsupported extensions. -/
theorem C3_amended_unsupported_extension (env : Env) (file : UploadFile)
    (lang : Option (List String)) (s : PState)
    (hext : extOf file.filename ∉ supported_extensions) :
    process_file env file false lang s =
      (Except.error ("Unsupported file type: " ++ extOf file.filename), s) := by
  have hpdf : extOf file.filename ≠ "pdf" := fun h => hext (h ▸ by decide)
  have hjson : extOf file.filename ≠ "json" := fun h => hext (h ▸ by decide)
  have hcsv : extOf file.filename ≠ "csv" := fun h => hext (h ▸ by decide)
  have hmemE : extOf file.filename ∉ enhanced_formats :=
    fun h => hext (List.mem_append_left _ h)
  have himg : extOf file.filename ∉
      (["jpg", "jpeg", "png", "gif", "bmp", "tiff", "webp"] : List String) := by
    intro h
    simp only [List.mem_cons, List.not_mem_nil, or_false] at h
    rcases h with h | h | h | h | h | h | h <;> exact hext (h ▸ by decide)
  have hxl : extOf file.filename ∉ (["xlsx", "xls"] : List String) := by
    intro h
    simp only [List.mem_cons, List.not_mem_nil, or_false] at h
    rcases h with h | h <;> exact hext (h ▸ by decide)
  have htxt : extOf file.filename ∉
      (["txt", "md", "rtf", "html", "xml", "yaml", "yml"] : List String) := by
    intro h
    simp only [List.mem_cons, List.not_mem_nil, or_false] at h
    rcases h with h | h | h | h | h | h | h <;> exact hext (h ▸ by decide)
  have hdoc : extOf file.filename ∉
      (["pdf", "docx", "doc", "odt"] : List String) := by
    intro h
    simp only [List.mem_cons, List.not_mem_nil, or_false] at h
    rcases h with h | h | h | h <;> exact hext (h ▸ by decide)
  have hshould : should_use_enhanced_processing env file false = false := by
    cases hd : env.doclingAvailable
    · simp [should_use_enhanced_processing, hd]
    · simp [should_use_enhanced_processing, hd, hmemE]
  simp only [process_file, if_neg hpdf, hshould, Bool.false_eq_true, if_false]
  simp [basic_processing, hjson, hcsv, himg, hxl, htxt, hdoc]

/-- C3 (amended) witness: `file.xyz` with `force_ocr=false` yields the
unsupported-format error and an untouched state. -/
theorem C3_witness_unsupported_extension :
    process_file envFailEngine ⟨"file.xyz", "BYTES"⟩ false none ⟨[], 0, []⟩ =
      (Except.error ("Unsupported file type: " ++ extOf "file.xyz"),
        (⟨[], 0, []⟩ : PState)) :=
  C3_amended_unsupported_extension envFailEngine ⟨"file.xyz", "BYTES"⟩ none
    ⟨[], 0, []⟩ (by decide)

/-! ## Claim C1 — resource exhaustion -/

theorem basic_c1 (env : Env) (file : UploadFile) (i : Nat)
    (l : List (Bool × Option (List String)))
    (hav : env.doclingAvailable = true)
    (hresi : check_system_resources env.maxMemoryMB (env.resources i) = false) :
    (basic_processing env file ⟨[], i, l⟩).2.log = l ∧
    (∀ out, (basic_processing env file ⟨[], i, l⟩).1 = Except.ok out →
      out.enhanced_processing = false) := by
  simp only [basic_processing]
  rw [pfe_cache_empty_resource_fail env file true none i l hav hresi]
  constructor
  · repeat' split
    all_goals simp [resource_failure_result, enh_failure_result]
  · intro out hout
    repeat' split at hout
    all_goals simp_all [json_basic_output, csv_basic_output, excel_basic_output,
      text_basic_output, document_basic_output, image_basic_output,
      enhanced_success_output, resource_failure_result, enh_failure_result]
    all_goals rw [← hout]

theorem pdf_fallback_c1 (env : Env) (file : UploadFile) (i : Nat)
    (l : List (Bool × Option (List String)))
    (hav : env.doclingAvailable = true)
    (hresi : check_system_resources env.maxMemoryMB (env.resources i) = false) :
    (pdf_fallback_block env file ⟨[], i, l⟩).2.log = l ∧
    (∀ out, (pdf_fallback_block env file ⟨[], i, l⟩).1 = Except.ok out →
      out.enhanced_processing = false) := by
  simp only [pdf_fallback_block]
  split
  · exact basic_c1 env file i l hav hresi
  · rw [pfe_cache_empty_resource_fail env file true (some ["eng"]) i l hav hresi]
    constructor
    · split
      · simp [resource_failure_result, enh_failure_result]
      · rfl
    · intro out hout
      split at hout
      · simp [resource_failure_result, enh_failure_result] at hout
        rw [← hout]
        simp [fallback_output]
      · simp at hout
        rw [← hout]
        simp [fallback_output]

/-- C1 counterexample environment: every resource check reads 0 MB available
memory and 100% CPU — insufficient resources throughout. -/
def envNoResources : Env :=
  { envFailEngine with resources := fun _ => ResourceReading.ok 0 100 }

/-- C1 counterexample: with the resource check reporting insufficient
resources on every call, `process_file` on a PDF does *not* return a
failure — both enhanced attempts fail with the resource-exhaustion error,
but the orchestrator then falls back to basic PyPDF2 processing and returns
a successful basic-extraction result (`success=True`,
`enhanced_processing=False`), i.e. the downgrade the claim rules out. -/
theorem C1_counterexample_resource_exhaustion_downgrades :
    check_system_resources envNoResources.maxMemoryMB (envNoResources.resources 0)
        = false ∧
    (process_file envNoResources filePdf false none ⟨[], 0, []⟩).1 =
      Except.ok (fallback_output envNoResources filePdf ⟨1, "hello world"⟩) ∧
    (fallback_output envNoResources filePdf ⟨1, "hello world"⟩).success = true ∧
    (fallback_output envNoResources filePdf ⟨1, "hello world"⟩).enhanced_processing
        = false := by
  exact ⟨by decide, rfl, rfl, rfl⟩

/-- C1 (amended): if the resource check reports insufficient resources at
every check (with Docling available and an empty partial-result cache),
every `process_file_enhanced` attempt fails with the resource-exhaustion
error and the enhanced engine is never invoked (the invocation log is
unchanged); however, `process_file` does not fail outright: it proceeds to
the fallback/basic path, and any successful result it returns is a basic
one (`enhanced_processing=False`) — resource exhaustion *is* downgraded to
basic processing rather than surfaced as a failure. -/
theorem C1_amended_resource_exhaustion (env : Env) (file : UploadFile)
    (fo : Bool) (lang : Option (List String)) (i : Nat)
    (l : List (Bool × Option (List String)))
    (hav : env.doclingAvailable = true)
    (hres : ∀ j, check_system_resources env.maxMemoryMB (env.resources j) = false) :
    (process_file_enhanced env file fo lang ⟨[], i, l⟩).1 =
      resource_failure_result env.elapsed ∧
    (process_file env file fo lang ⟨[], i, l⟩).2.log = l ∧
    (∀ out, (process_file env file fo lang ⟨[], i, l⟩).1 = Except.ok out →
      out.enhanced_processing = false) := by
  have hatt : ∀ f lg, enhanced_attempts env file f lg ⟨[], i, l⟩ =
      (resource_failure_result env.elapsed, ⟨[], i + 2, l⟩) := by
    intro f lg
    unfold enhanced_attempts
    rw [pfe_cache_empty_resource_fail env file f lg i l hav (hres i)]
    rw [if_neg (by simp [resource_failure_not_success])]
    rw [pfe_cache_empty_resource_fail env file true (some (pyOrDefault lg)) (i + 1)
      l hav (hres (i + 1))]
  refine ⟨by rw [pfe_cache_empty_resource_fail env file fo lang i l hav (hres i)], ?_⟩
  simp only [process_file]
  by_cases hpdf : extOf file.filename = "pdf"
  · simp only [hpdf, eq_self_iff_true, if_true]
    have hsh : should_use_enhanced_processing env file true = true := by
      simp [should_use_enhanced_processing, hav]
    simp only [hsh, if_true]
    rw [hatt true lang]
    rw [if_neg (by simp [resource_failure_not_success])]
    exact pdf_fallback_c1 env file (i + 2) l hav (hres (i + 2))
  · simp only [if_neg hpdf]
    by_cases hsh : should_use_enhanced_processing env file fo = true
    · simp only [hsh, if_true]
      rw [hatt fo lang]
      rw [if_neg (by simp [resource_failure_not_success])]
      exact basic_c1 env file (i + 2) l hav (hres (i + 2))
    · simp only [Bool.not_eq_true] at hsh
      simp only [hsh, Bool.false_eq_true, if_false]
      exact basic_c1 env file i l hav (hres i)

/-- C1 witness: the amended behavior at the concrete resource-starved
environment. -/
theorem C1_witness_resource_exhaustion :
    (process_file_enhanced envNoResources filePdf false none ⟨[], 0, []⟩).1 =
      resource_failure_result envNoResources.elapsed ∧
    (process_file envNoResources filePdf false none ⟨[], 0, []⟩).2.log = [] ∧
    (∀ out, (process_file envNoResources filePdf false none ⟨[], 0, []⟩).1 =
        Except.ok out → out.enhanced_processing = false) :=
  C1_amended_resource_exhaustion envNoResources filePdf false none 0 [] rfl
    (fun j => by
      show check_system_resources 2048 (ResourceReading.ok 0 100) = false
      decide)
